import Mathlib

/-!
Verification development for the cross-tab session cache and
authentication-continuity layer of the `aditi-daily-updates-v6` client.

The TypeScript sources are shallowly embedded:

* `localStorage` (the durable, origin-shared store) is modelled as an
  association list from key strings to parsed JSON values (`LStore`);
  `sessionStorage` (the volatile, per-tab store), whose values in the source
  are always plain strings, is modelled as an association list from key
  strings to strings (`SStore`).  `setItem` overwrites, `getItem` reads,
  `removeItem` deletes; `JSON.stringify`/`JSON.parse` round-trips are the
  identity on the structured values held in `LStore`.
* JSON values are the inductive `JVal` (objects as association lists of
  fields; a JavaScript object literal with spread keeps the last binding of
  a duplicated key, so field lookup is last-binding-wins, `jLookup`).
* Timers (`setTimeout`) are modelled as a pending list of
  (absolute fire time, action) pairs on the tab state; pending timers that
  are due fire before the handler of the next event, and again when the
  state is sampled at an observation time.
* Network effects (the remote auth collaborator) enter as explicit outcome
  parameters; storage effects of the code are translated exactly.
-/

namespace Aditi

/-- Parsed JSON values (arrays are not needed by this layer). -/
inductive JVal where
  | str (s : String)
  | num (n : Int)
  | bool (b : Bool)
  | null
  | obj (fields : List (String × JVal))

/-- Durable store (`localStorage`): keys mapped to parsed JSON values. -/
abbrev LStore : Type := List (String × JVal)

/-- Volatile per-tab store (`sessionStorage`): keys mapped to strings. -/
abbrev SStore : Type := List (String × String)

/-- Model of `localStorage.getItem` (first binding wins; keys are kept unique by
`setItem`/`removeItem`). -/
def getItem (s : LStore) (k : String) : Option JVal :=
  (List.find? (fun p => p.1 == k) s).map (fun p => p.2)

/-- Model of `localStorage.removeItem`. -/
def removeItem (s : LStore) (k : String) : LStore :=
  List.filter (fun p => !(p.1 == k)) s

/-- Model of `localStorage.setItem` (overwrites any previous binding). -/
def setItem (s : LStore) (k : String) (v : JVal) : LStore :=
  (k, v) :: removeItem s k

/-- Model of `sessionStorage.getItem`. -/
def getS (s : SStore) (k : String) : Option String :=
  (List.find? (fun p => p.1 == k) s).map (fun p => p.2)

/-- Model of `sessionStorage.removeItem`. -/
def removeS (s : SStore) (k : String) : SStore :=
  List.filter (fun p => !(p.1 == k)) s

/-- Model of `sessionStorage.setItem`. -/
def setS (s : SStore) (k : String) (v : String) : SStore :=
  (k, v) :: removeS s k

/-- Model of `String.prototype.startsWith`, computed on the character list. -/
def strHasPre (s p : String) : Bool :=
  List.take p.data.length s.data == p.data

/-- Model of `String.prototype.includes`: `p` occurs as a contiguous substring of
`s`. -/
def containsSub (s p : String) : Bool :=
  (List.range (s.data.length + 1)).any
    (fun i => List.take p.data.length (List.drop i s.data) == p.data)

/-- Storage key constants of `tabSwitchUtil.ts`. -/
def TAB_STATE_KEY : String := "aditi_tab_state"

/-- Volatile flag key: set while returning from a tab switch. -/
def RETURNING_FLAG : String := "returning_from_tab_switch"

/-- Volatile flag key: set to damp automatic refreshes. -/
def PREVENT_REFRESH : String := "prevent_auto_refresh"

/-- Volatile key holding the per-tab identifier. -/
def TAB_ID_KEY : String := "aditi_tab_id"

/-- Durable key holding the auth-session blob of the remote collaborator. -/
def AUTH_TOKEN_KEY : String := "aditi_supabase_auth"

/-- Durable key holding the cached user-identity record
(`authContext.tsx`). -/
def USER_CACHE_KEY : String := "aditi_user_cache"

/-- JavaScript truthiness on `JVal` (empty string, `0`, `false`, `null`
are falsy; objects are truthy). -/
def jsTruthy : JVal → Bool
  | .str s => !(s == "")
  | .num n => !(n == 0)
  | .bool b => b
  | .null => false
  | .obj _ => true

/-- JavaScript string interpolation of a `JVal`. -/
def jsToString : JVal → String
  | .str s => s
  | .num n => toString n
  | .bool b => if b then "true" else "false"
  | .null => "null"
  | .obj _ => "[object Object]"

/-- Translation of `getAuthToken` (`tabSwitchUtil.ts:36-49`): read the auth blob under
`aditi_supabase_auth`, parse it, and return `parsedData?.access_token || null`
(so a falsy token yields `null`, as does a missing key or a non-object
blob).  The non-browser guard is the `none` branch of the missing key. -/
def getAuthToken (ls : LStore) : Option JVal :=
  match getItem ls AUTH_TOKEN_KEY with
  | none => none
  | some (.obj fields) =>
      match (List.find? (fun p => p.1 == "access_token") fields).map (fun p => p.2) with
      | some v => if jsTruthy v then some v else none
      | none => none
  | some _ => none

/-- The template `tab_${Date.now()}_${Math.random().toString(36).slice(2, 11)}`;
the clock reading and the random suffix are explicit parameters. -/
def genTabId (now : Nat) (rand : String) : String :=
  String.mk ('t' :: 'a' :: 'b' :: '_' :: ((toString now).data ++ '_' :: rand.data))

/-- Translation of `getTabId` (`tabSwitchUtil.ts:20-31`): outside a browser return the
empty-string sentinel; otherwise return the stored tab id, generating,
storing and returning a fresh one when none is stored (a stored empty
string is falsy and also triggers generation). -/
def getTabId (isBrowser : Bool) (ss : SStore) (now : Nat) (rand : String) :
    String × SStore :=
  if isBrowser then
    match getS ss TAB_ID_KEY with
    | some tid =>
        if tid = "" then
          let g := genTabId now rand
          (g, setS ss TAB_ID_KEY g)
        else (tid, ss)
    | none =>
        let g := genTabId now rand
        (g, setS ss TAB_ID_KEY g)
  else ("", ss)

/-- Key patterns removed by the durable-store sweep of `signOut`
(`authContext.tsx`, STEP 1): Supabase prefixes plus the auth-related
substrings, including `password`. -/
def localSweepHit (k : String) : Bool :=
  strHasPre k "sb-" || strHasPre k "supabase" ||
  containsSub k "auth" || containsSub k "session" || containsSub k "token" ||
  containsSub k "user" || containsSub k "aditi" || containsSub k "login" ||
  containsSub k "password" || containsSub k "cache" || containsSub k "state"

/-- Key patterns removed by the volatile-store sweep of `signOut`
(STEP 2): same vocabulary without `password`. -/
def sessionSweepHit (k : String) : Bool :=
  strHasPre k "sb-" || strHasPre k "supabase" ||
  containsSub k "auth" || containsSub k "session" || containsSub k "token" ||
  containsSub k "user" || containsSub k "aditi" || containsSub k "login" ||
  containsSub k "cache" || containsSub k "state"

/-- Modelled from the spec: the credential vocabulary of §4.5/§8 — prefixes
`sb-`/`supabase` and substrings `auth`, `session`, `token`, `user`,
`aditi`, `login`, `cache`, `state`.  Used only to state the purge claim;
the code-side sweeps are `localSweepHit`/`sessionSweepHit`. -/
def specVocabHit (k : String) : Bool :=
  strHasPre k "sb-" || strHasPre k "supabase" ||
  containsSub k "auth" || containsSub k "session" || containsSub k "token" ||
  containsSub k "user" || containsSub k "aditi" || containsSub k "login" ||
  containsSub k "cache" || containsSub k "state"

/-- Durable-store effect of the normal `signOut` path
(`authContext.tsx:292-514`): STEP 1 removes the fixed key list, then sweeps
every key matching `localSweepHit`; STEP 8 re-removes the critical keys.
(The remote sign-out attempts of STEPS 6-7 and the cache/IndexedDB clearing
of STEPS 3-5 touch no durable-store key.) -/
def signOutLocalPurge (ls : LStore) : LStore :=
  let ls1 := removeItem (removeItem (removeItem (removeItem ls
      USER_CACHE_KEY) AUTH_TOKEN_KEY) TAB_STATE_KEY) "bypass_team_check"
  let ls2 := List.filter (fun p => !(localSweepHit p.1)) ls1
  removeItem (removeItem ls2 USER_CACHE_KEY) AUTH_TOKEN_KEY

/-- Volatile-store effect of the normal `signOut` path (STEP 2): remove the
fixed session keys, then sweep every key matching `sessionSweepHit`. -/
def signOutSessionPurge (ss : SStore) : SStore :=
  let ss1 := removeS (removeS (removeS ss TAB_ID_KEY) RETURNING_FLAG) PREVENT_REFRESH
  List.filter (fun p => !(sessionSweepHit p.1)) ss1

/-- Durable-store effect of the emergency fallback of `signOut`
(`authContext.tsx:516-545`): remove only keys containing `aditi`, `sb-` or
`supabase`; the volatile store is not touched on this path (short of the
last-resort `clear()` that runs only if this sweep itself throws). -/
def emergencyLocalPurge (ls : LStore) : LStore :=
  List.filter
    (fun p => !(containsSub p.1 "aditi" || containsSub p.1 "sb-" ||
                containsSub p.1 "supabase")) ls

/-- Field lookup on a JavaScript object built by an object literal: the
last binding of a key wins (spread semantics). -/
def jLookup (l : List (String × JVal)) (k : String) : Option JVal :=
  (List.find? (fun p => p.1 == k) l.reverse).map (fun p => p.2)

/-- The object literal `{ ...base fields..., ...extra }`: base fields in
order, each overridden by `extra` when `extra` binds the same key, followed
by the bindings of `extra` whose keys are not base keys. -/
def objMerge (base extra : List (String × JVal)) : List (String × JVal) :=
  base.map (fun p => (p.1, (jLookup extra p.1).getD p.2)) ++
    extra.filter (fun q => !(base.any (fun p => p.1 == q.1)))

/-- The `undefined`/`null` injection used when serializing an absent token. -/
def optTok : Option JVal → JVal
  | some v => v
  | none => .null

/-- The standard fields `saveTabState` constructs before spreading
`additionalData` (`tabSwitchUtil.ts:98-104`). -/
def tabStateFields (tabId : String) (now : Nat) (route : String)
    (ls : LStore) : List (String × JVal) :=
  [("tabId", .str tabId), ("lastActive", .num (Int.ofNat now)),
   ("route", .str route), ("authToken", optTok (getAuthToken ls))]

/-- Translation of `saveTabState` (`tabSwitchUtil.ts:94-109`): outside a browser do
nothing; otherwise build the tab record (standard fields spread with
`additionalData`, caller bindings winning) and overwrite the durable
record under `aditi_tab_state`.  `getTabId` may also persist a fresh tab
id into the volatile store. -/
def saveTabState (isBrowser : Bool) (ls : LStore) (ss : SStore) (now : Nat)
    (route : String) (rand : String) (extra : List (String × JVal)) :
    LStore × SStore :=
  if isBrowser then
    let p := getTabId true ss now rand
    let record := JVal.obj (objMerge (tabStateFields p.1 now route ls) extra)
    (setItem ls TAB_STATE_KEY record, p.2)
  else (ls, ss)

/-- Translation of `restoreTabState` (`tabSwitchUtil.ts:114-126`): outside a browser, or
when no record is stored, return null; otherwise the parsed record. -/
def restoreTabState (isBrowser : Bool) (ls : LStore) : Option JVal :=
  if isBrowser then getItem ls TAB_STATE_KEY else none

/-- Request headers: a list of (name, value) pairs.  Names are kept as
written; every lookup is case-insensitive, matching `Headers`
semantics. -/
abbrev HdrList : Type := List (String × String)

/-- ASCII lowercase of one character (the case folding `Headers` uses for
header names). -/
def lowChar (c : Char) : Char :=
  if 65 ≤ c.toNat ∧ c.toNat ≤ 90 then Char.ofNat (c.toNat + 32) else c

/-- ASCII lowercase of a string. -/
def lowStr (s : String) : String := String.mk (s.data.map lowChar)

/-- Model of `Headers.has`, case-insensitive. -/
def hasHeader (hs : HdrList) (name : String) : Bool :=
  hs.any (fun p => lowStr p.1 == lowStr name)

/-- Model of `Headers.get`, case-insensitive (first match). -/
def getHeader (hs : HdrList) (name : String) : Option String :=
  (List.find? (fun p => lowStr p.1 == lowStr name) hs).map (fun p => p.2)

/-- Model of `Headers.set`: replace the value of an existing case-insensitive match,
dropping later duplicates, or append a new entry. -/
def setHeader (hs : HdrList) (name : String) (v : String) : HdrList :=
  if hasHeader hs name then
    (hs.map (fun p => if lowStr p.1 == lowStr name then (p.1, v) else p)).eraseDups
  else hs ++ [(name, v)]

/-- The test `url.startsWith('/') || url.startsWith(window.location.origin)`
(`tabSwitchUtil.ts:194`). -/
def isSameOriginUrl (origin url : String) : Bool :=
  strHasPre url "/" || strHasPre url origin

/-- The test `url.includes(process.env.NEXT_PUBLIC_SUPABASE_URL || '')`
(`tabSwitchUtil.ts:195`). -/
def isSupabaseUrl (supabaseUrl url : String) : Bool :=
  containsSub url supabaseUrl

/-- The per-request header transformation of the wrapper installed by
`ensureTokenInRequests` (`tabSwitchUtil.ts:185-212`): when the target is
same-origin or a Supabase call and a token is cached, attach
`Authorization: Bearer <token>` unless an Authorization header (any case)
is already present; otherwise leave the request's headers as given. -/
def ensureTokenTransform (origin supabaseUrl : String) (ls : LStore)
    (url : String) (hs : HdrList) : HdrList :=
  match getAuthToken ls with
  | none => hs
  | some tok =>
      if isSameOriginUrl origin url || isSupabaseUrl supabaseUrl url then
        if hasHeader hs "Authorization" || hasHeader hs "authorization" then hs
        else setHeader hs "Authorization" ("Bearer " ++ jsToString tok)
      else hs

/-- The shape of `window.fetch` after zero or more invocations of
`ensureTokenInRequests`: the pristine primitive, or a wrapper holding the
previously installed function as its `originalFetch`. -/
inductive FetchImpl where
  | original
  | wrapped (inner : FetchImpl)
deriving DecidableEq

/-- Translation of `ensureTokenInRequests` (`tabSwitchUtil.ts:180-213`) as a transformer
of the installed fetch function: it unconditionally captures the current
`window.fetch` and replaces it by a wrapper — there is no installed-flag
guard. -/
def ensureTokenInRequests (f : FetchImpl) : FetchImpl := .wrapped f

/-- Run a request through the installed fetch chain: every wrapper applies
the header transformation and calls its captured inner function; the
result is the header list delivered to the network primitive, paired with
the number of times the pristine primitive runs. -/
def runFetch (origin supabaseUrl : String) (ls : LStore) :
    FetchImpl → String → HdrList → HdrList × Nat
  | .original, _, hs => (hs, 1)
  | .wrapped g, url, hs =>
      runFetch origin supabaseUrl ls g url
        (ensureTokenTransform origin supabaseUrl ls url hs)

/-- The authenticated user delivered by the remote collaborator
(`session.user`): the email and the metadata name may be absent. -/
structure AuthUser where
  id : String
  email : Option String
  metadataName : Option String

/-- In-memory identity plus the durable store, the state
`checkSessionQuietly` and `updateUserData` act on.  The in-memory `user`
holds the parsed user object (`setUser`). -/
structure AuthSt where
  user : Option JVal
  ls : LStore

/-- The expression `authUser.email.split` at the at-sign, first part. -/
def emailLocalPart (e : String) : String :=
  String.mk (e.data.takeWhile (fun c => !(c == '@')))

/-- The fallback chain for the display name (metadata name, else the local part of the email, else the literal User). -/
def resolveName (metadataName : Option String) (email : String) : String :=
  let fallback := if emailLocalPart email = "" then "User" else emailLocalPart email
  match metadataName with
  | some m => if m = "" then fallback else m
  | none => fallback

/-- Optional string as a JSON field value (`undefined` serialized). -/
def optStr : Option String → JVal
  | some s => .str s
  | none => .null

/-- Translation of `updateUserData` (`authContext.tsx:163-244`), with the remote role and
team queries as explicit inputs: no email clears the in-memory identity
and returns; otherwise the role is `admin` when an admin row exists, else
`manager` when manager rows exist (`user` if the role queries threw), the
team fields come from the membership row (absent if that query threw), and
the resolved record is written to memory and to the durable cache. -/
def updateUserData (au : AuthUser) (adminRow : Bool) (managerRows : Nat)
    (roleQueryThrew : Bool) (teamRow : Option (Option String × Option String))
    (teamQueryThrew : Bool) (now : Nat) (st : AuthSt) : AuthSt :=
  match au.email with
  | none => { st with user := none }
  | some em =>
      if em = "" then { st with user := none }
      else
        let role :=
          if roleQueryThrew then "user"
          else if adminRow then "admin"
          else if managerRows > 0 then "manager"
          else "user"
        let team :=
          if teamQueryThrew then (none, none)
          else match teamRow with
            | some tr => tr
            | none => (none, none)
        let u := JVal.obj
          [("id", .str au.id), ("email", .str em),
           ("name", .str (resolveName au.metadataName em)),
           ("role", .str role), ("teamId", optStr team.1),
           ("teamName", optStr team.2),
           ("lastChecked", .num (Int.ofNat now))]
        { user := some u, ls := setItem st.ls USER_CACHE_KEY u }

/-- Outcome of `supabase.auth.getSession()` as observed by
`checkSessionQuietly`: a session with a user (carrying the collaborator
answers `updateUserData` will need), a session without a user, no session,
an error result, or a thrown exception. -/
inductive SessionOutcome where
  | ok (au : AuthUser) (adminRow : Bool) (managerRows : Nat)
      (roleQueryThrew : Bool) (teamRow : Option (Option String × Option String))
      (teamQueryThrew : Bool)
  | okNoUser
  | noSession
  | errorResult
  | threw

/-- Translation of `checkSessionQuietly` (`authContext.tsx:137-160`): an error result
clears the in-memory identity and removes the cached record; a session
with a user runs `updateUserData`; no session with an in-memory identity
clears both only when no cached record exists (when one exists the
identity is preserved — the visibility test only logs); a thrown
exception changes nothing. -/
def checkSessionQuietly (o : SessionOutcome) (visible : Bool) (now : Nat)
    (st : AuthSt) : AuthSt :=
  match o with
  | .errorResult => { user := none, ls := removeItem st.ls USER_CACHE_KEY }
  | .ok au a m rt tr tt => updateUserData au a m rt tr tt now st
  | .okNoUser => st
  | .threw => st
  | .noSession =>
      match st.user with
      | none => st
      | some _ =>
          match getItem st.ls USER_CACHE_KEY with
          | none => { user := none, ls := removeItem st.ls USER_CACHE_KEY }
          | some _ =>
              if visible then st  -- falls through: nothing happens
              else st             -- logs "Preserving user during tab switch"

/-- Timer callbacks scheduled by the tab-switch layer: the 2500 ms
callback of the visibility listener (removes `returning_from_tab_switch`
and the `tab-just-activated` class) and the 5000 ms callback of
`preventNextTabSwitchRefresh` (removes `prevent_auto_refresh`). -/
inductive TimerAct where
  | clearRetMarker
  | clearPrevFlag
deriving DecidableEq

/-- Tab-local suppression state: the two volatile flags, the DOM marker
class, and the pending timers as (absolute fire time, action) pairs. -/
structure TabState where
  ret : Bool
  prev : Bool
  marker : Bool
  timers : List (Nat × TimerAct)
deriving DecidableEq

/-- Events driving the suppression state: the visibility listener of
`applySwitchPreventionToFetch` (`tabSwitchUtil.ts:154-164`) and a call of
`preventNextTabSwitchRefresh` (`tabSwitchUtil.ts:68-89`). -/
inductive TabEv where
  | show
  | hide
  | prevent
deriving DecidableEq

/-- Execute one timer callback. -/
def fireAct (s : TabState) : TimerAct → TabState
  | .clearRetMarker => { s with ret := false, marker := false }
  | .clearPrevFlag => { s with prev := false }

/-- Fire every pending timer due at or before `now`. -/
def fireDue (now : Nat) (s : TabState) : TabState :=
  let s' := (s.timers.filter (fun t => t.1 ≤ now)).foldl
    (fun st t => fireAct st t.2) s
  { s' with timers := s.timers.filter (fun t => !(t.1 ≤ now)) }

/-- Event handlers (`tabSwitchUtil.ts:154-164` and `68-89`): on `show`
schedule the 2500 ms clearing of the returning flag and the marker (the
handler also persists the tab record, which this state does not track);
`hide` only persists the tab record; `prevent` sets
`prevent_auto_refresh` and schedules its removal 5000 ms later. -/
def handleEv (now : Nat) (e : TabEv) (s : TabState) : TabState :=
  match e with
  | .show => { s with timers := s.timers ++ [(now + 2500, .clearRetMarker)] }
  | .hide => s
  | .prevent =>
      { s with prev := true, timers := s.timers ++ [(now + 5000, .clearPrevFlag)] }

/-- Process one timestamped event: due timers fire first, then the
handler runs. -/
def stepEv (s : TabState) (te : Nat × TabEv) : TabState :=
  handleEv te.1 te.2 (fireDue te.1 s)

/-- Run a timestamped event trace. -/
def runTrace (s0 : TabState) (tr : List (Nat × TabEv)) : TabState :=
  tr.foldl stepEv s0

/-- Observe the suppression state at time `T` after a trace: timers due by
`T` have fired. -/
def stateAt (s0 : TabState) (tr : List (Nat × TabEv)) (T : Nat) : TabState :=
  fireDue T (runTrace s0 tr)

/-- Invariant: the returning flag and the DOM marker are already clear,
or a `clearRetMarker` timer due no later than `b` is pending. -/
def RetPending (b : Nat) (s : TabState) : Prop :=
  (s.ret = false ∧ s.marker = false) ∨
    ∃ u, u ≤ b ∧ (u, TimerAct.clearRetMarker) ∈ s.timers

/-- Invariant: the `prevent_auto_refresh` flag is already clear, or a
`clearPrevFlag` timer due no later than `b` is pending. -/
def PrevPending (b : Nat) (s : TabState) : Prop :=
  s.prev = false ∨ ∃ u, u ≤ b ∧ (u, TimerAct.clearPrevFlag) ∈ s.timers

section Lemmas

/-- A key-directed search misses a filtered list whenever the filter
rejects every pair carrying that key. -/
theorem find?_key_filter_eq_none {α : Type} (s : List (String × α))
    (q : String × α → Bool) (k : String)
    (h : ∀ p : String × α, p.1 = k → q p = false) :
    List.find? (fun p => p.1 == k) (s.filter q) = none := by
  rw [List.find?_eq_none]
  intro x hx hbeq
  have hk : x.1 = k := by simpa using hbeq
  have hq := (List.mem_filter.mp hx).2
  rw [h x hk] at hq
  exact Bool.false_ne_true hq

/-- Filtering cannot make a failed search succeed. -/
theorem find?_filter_none {α : Type} (p q : α → Bool) (l : List α)
    (h : List.find? p l = none) : List.find? p (l.filter q) = none := by
  rw [List.find?_eq_none] at h ⊢
  intro x hx
  exact h x (List.mem_filter.mp hx).1

/-- A filter that keeps everything the search predicate accepts does not
change the search result. -/
theorem find?_filter_of_imp {α : Type} (p q : α → Bool) (l : List α)
    (h : ∀ x, p x = true → q x = true) :
    List.find? p (l.filter q) = List.find? p l := by
  induction l with
  | nil => rfl
  | cons x xs ih =>
      cases hpx : p x with
      | true =>
          simp [List.filter_cons, h x hpx, List.find?_cons, hpx]
      | false =>
          cases hqx : q x <;>
            simp [List.filter_cons, hqx, List.find?_cons, hpx, ih]

/-- Reading `getItem` after removing the same key. -/
theorem getItem_removeItem_self (s : LStore) (k : String) :
    getItem (removeItem s k) k = none := by
  have hf : List.find? (fun p => p.1 == k)
      (List.filter (fun p => !(p.1 == k)) s) = none := by
    apply find?_key_filter_eq_none
    intro p hp
    simp [hp]
  unfold getItem removeItem
  rw [hf]
  rfl

/-- The operation `removeItem` preserves the absence of any key. -/
theorem getItem_removeItem_none (s : LStore) (k k' : String)
    (h : getItem s k = none) : getItem (removeItem s k') k = none := by
  unfold getItem at h ⊢
  unfold removeItem
  rcases hf : List.find? (fun p => p.1 == k) s with _ | p
  · rw [find?_filter_none _ _ _ hf]
    rfl
  · rw [hf] at h
    simp at h

/-- Reading `getItem` after `setItem` of the same key. -/
theorem getItem_setItem_self (s : LStore) (k : String) (v : JVal) :
    getItem (setItem s k v) k = some v := by
  simp [getItem, setItem, List.find?_cons]

/-- Reading `getS` after `setS` of the same key. -/
theorem getS_setS_self (s : SStore) (k v : String) :
    getS (setS s k v) k = some v := by
  simp [getS, setS, List.find?_cons]

/-- A generated tab id is never the empty string (it starts with `tab_`). -/
theorem genTabId_ne_empty (now : Nat) (rand : String) :
    ¬ genTabId now rand = "" := by
  intro h
  have h2 := congrArg String.data h
  simp [genTabId] at h2

/-- A key missing from the auth blob slot makes `getAuthToken` null. -/
theorem getAuthToken_eq_none (ls : LStore)
    (h : getItem ls AUTH_TOKEN_KEY = none) : getAuthToken ls = none := by
  unfold getAuthToken
  rw [h]

/-- The spec's credential vocabulary is contained in the durable-store
sweep of `signOut`. -/
theorem specVocab_imp_localSweep (k : String)
    (h : specVocabHit k = true) : localSweepHit k = true := by
  simp only [specVocabHit, Bool.or_eq_true] at h
  simp only [localSweepHit, Bool.or_eq_true]
  tauto

/-- The volatile-store sweep matches exactly the spec's credential
vocabulary. -/
theorem sessionSweep_eq_specVocab : sessionSweepHit = specVocabHit := rfl

/-- The normal purge path leaves no durable-store key matching the
durable sweep vocabulary. -/
theorem signOutLocalPurge_none (ls : LStore) (k : String)
    (h : localSweepHit k = true) :
    getItem (signOutLocalPurge ls) k = none := by
  unfold signOutLocalPurge
  apply getItem_removeItem_none
  apply getItem_removeItem_none
  have hf : List.find? (fun p => p.1 == k)
      (List.filter (fun p => !(localSweepHit p.1))
        (removeItem (removeItem (removeItem (removeItem ls
          USER_CACHE_KEY) AUTH_TOKEN_KEY) TAB_STATE_KEY) "bypass_team_check")) = none := by
    apply find?_key_filter_eq_none
    intro p hp
    simp [hp, h]
  unfold getItem
  rw [hf]
  rfl

/-- The normal purge path leaves no volatile-store key matching the
volatile sweep vocabulary. -/
theorem signOutSessionPurge_none (ss : SStore) (k : String)
    (h : sessionSweepHit k = true) :
    getS (signOutSessionPurge ss) k = none := by
  have hf : List.find? (fun p => p.1 == k)
      (List.filter (fun p => !(sessionSweepHit p.1))
        (removeS (removeS (removeS ss TAB_ID_KEY) RETURNING_FLAG) PREVENT_REFRESH)) = none := by
    apply find?_key_filter_eq_none
    intro p hp
    simp [hp, h]
  unfold signOutSessionPurge getS
  rw [hf]
  rfl

end Lemmas

/-- C1 — counterexample.  The claim quantifies over the emergency
fallback as well, but that path removes only durable keys containing
`aditi`, `sb-` or `supabase`: the key `token_x` matches the credential
vocabulary (substring `token`) yet survives the emergency sweep. -/
theorem signOut_emergency_leaves_vocab_key :
    specVocabHit "token_x" = true ∧
    getItem (emergencyLocalPurge [("token_x", JVal.str "v")]) "token_x" =
      some (JVal.str "v") :=
  ⟨rfl, rfl⟩

/-- C1 — amended.  After the *normal* `signOut` purge completes, every
durable-store and volatile-store key matching the credential vocabulary
(prefixes `sb-`/`supabase`; substrings `auth`, `session`, `token`,
`user`, `aditi`, `login`, `cache`, `state`) is absent and
`getAuthToken()` returns null; the emergency fallback guarantees only
that durable keys containing `aditi`, `sb-` or `supabase` are gone
(which still forces `getAuthToken()` to null), leaving other
vocabulary-matching keys and the volatile store untouched. -/
theorem signOut_purge_clears_vocab (ls : LStore) (ss : SStore) (k : String) :
    (specVocabHit k = true →
      getItem (signOutLocalPurge ls) k = none ∧
      getS (signOutSessionPurge ss) k = none) ∧
    getAuthToken (signOutLocalPurge ls) = none ∧
    getAuthToken (emergencyLocalPurge ls) = none := by
  refine ⟨fun h => ⟨signOutLocalPurge_none ls k (specVocab_imp_localSweep k h),
    signOutSessionPurge_none ss k (by rw [sessionSweep_eq_specVocab]; exact h)⟩, ?_, ?_⟩
  · exact getAuthToken_eq_none _
      (signOutLocalPurge_none ls AUTH_TOKEN_KEY (by decide))
  · apply getAuthToken_eq_none
    have hf : List.find? (fun p => p.1 == AUTH_TOKEN_KEY)
        (List.filter
          (fun p => !(containsSub p.1 "aditi" || containsSub p.1 "sb-" ||
                      containsSub p.1 "supabase")) ls) = none := by
      apply find?_key_filter_eq_none
      intro p hp
      have hc : containsSub p.1 "aditi" = true := by rw [hp]; decide
      simp [hc]
    unfold emergencyLocalPurge getItem
    rw [hf]
    rfl

/-- C1 — witness for the amended theorem at a concrete store. -/
theorem signOut_purge_clears_vocab_witness :
    getItem (signOutLocalPurge [("sb-ref-token", JVal.str "x")]) "sb-ref-token" = none ∧
    getS (signOutSessionPurge [("sb-ref-token", "x")]) "sb-ref-token" = none :=
  (signOut_purge_clears_vocab [("sb-ref-token", JVal.str "x")]
    [("sb-ref-token", "x")] "sb-ref-token").1 (by decide)

/-- C8 — confirmed.  `getTabId()` is stable across a tab lifetime: a
second call on the volatile store left by the first returns the same
identifier (whatever the clock or randomness supplies in between), and
outside a browser it returns the empty-string sentinel without failing. -/
theorem getTabId_stable (ss : SStore) (now₁ now₂ : Nat) (rand₁ rand₂ : String) :
    (getTabId true (getTabId true ss now₁ rand₁).2 now₂ rand₂).1 =
      (getTabId true ss now₁ rand₁).1 ∧
    getTabId false ss now₁ rand₁ = ("", ss) := by
  constructor
  · unfold getTabId
    rcases hf : getS ss TAB_ID_KEY with _ | tid
    · simp only [hf, if_true]
      rw [getS_setS_self]
      simp [genTabId_ne_empty]
    · by_cases he : tid = ""
      · simp only [hf, he, if_true]
        rw [getS_setS_self]
        simp [genTabId_ne_empty]
      · simp [hf, he]
  · rfl

/-- C3 — counterexample.  The claim states that an errored session query
leaves the state untouched, but when `getSession()` *returns* an error
result the code clears the in-memory identity (and removes the cached
record): from a state with a signed-in user, the identity becomes null. -/
theorem checkSession_error_clears_state :
    (checkSessionQuietly SessionOutcome.errorResult true 0
      ⟨some (JVal.obj [("email", JVal.str "a@b.c")]),
       [(USER_CACHE_KEY, JVal.obj [])]⟩).user = none ∧
    (⟨some (JVal.obj [("email", JVal.str "a@b.c")]),
      [(USER_CACHE_KEY, JVal.obj [])]⟩ : AuthSt).user =
      some (JVal.obj [("email", JVal.str "a@b.c")]) :=
  ⟨rfl, rfl⟩

/-- C3 — amended.  Only a *thrown* exception during revalidation is
inconclusive and changes no state; a session query that returns an error
result instead clears the in-memory identity and removes the durable
`UserCacheRecord`. -/
theorem checkSession_throw_no_change (visible : Bool) (now : Nat) (st : AuthSt) :
    checkSessionQuietly SessionOutcome.threw visible now st = st ∧
    (checkSessionQuietly SessionOutcome.errorResult visible now st).user = none ∧
    getItem (checkSessionQuietly SessionOutcome.errorResult visible now st).ls
      USER_CACHE_KEY = none :=
  ⟨rfl, rfl, getItem_removeItem_self st.ls USER_CACHE_KEY⟩

/-- C4 — confirmed.  When revalidation reports no session while an
in-memory identity is present, the identity and the cached record are
cleared exactly when no cached record exists; when a cached record
exists the state is left untouched (in particular a hidden tab preserves
the cached identity). -/
theorem checkSession_noSession_policy (visible : Bool) (now : Nat)
    (st : AuthSt) (u : JVal) (hu : st.user = some u) :
    (getItem st.ls USER_CACHE_KEY = none →
      checkSessionQuietly SessionOutcome.noSession visible now st =
        ⟨none, removeItem st.ls USER_CACHE_KEY⟩) ∧
    (∀ c, getItem st.ls USER_CACHE_KEY = some c →
      checkSessionQuietly SessionOutcome.noSession visible now st = st) := by
  constructor
  · intro hc
    simp [checkSessionQuietly, hu, hc]
  · intro c hc
    cases visible <;> simp [checkSessionQuietly, hu, hc]

/-- C4 — witness: a hidden tab with a cached record preserves the state;
a state with no cached record is cleared. -/
theorem checkSession_noSession_policy_witness :
    checkSessionQuietly SessionOutcome.noSession false 0
      ⟨some JVal.null, [(USER_CACHE_KEY, JVal.obj [])]⟩ =
      ⟨some JVal.null, [(USER_CACHE_KEY, JVal.obj [])]⟩ ∧
    checkSessionQuietly SessionOutcome.noSession false 0 ⟨some JVal.null, []⟩ =
      ⟨none, removeItem [] USER_CACHE_KEY⟩ :=
  ⟨(checkSession_noSession_policy false 0
      ⟨some JVal.null, [(USER_CACHE_KEY, JVal.obj [])]⟩ JVal.null rfl).2
      (JVal.obj []) rfl,
   (checkSession_noSession_policy false 0 ⟨some JVal.null, []⟩ JVal.null rfl).1 rfl⟩

section HeaderLemmas

/-- Appending a header makes any case-insensitive probe for its name
succeed. -/
theorem hasHeader_append_self (hs : HdrList) (n v : String) :
    hasHeader (hs ++ [(n, v)]) n = true := by
  unfold hasHeader
  rw [List.any_append]
  simp

/-- The two spellings probed by the source are the same case-insensitive
check. -/
theorem hasHeader_lower_variant (hs : HdrList) :
    hasHeader hs "authorization" = hasHeader hs "Authorization" := rfl

/-- A failed case-insensitive probe means the underlying search fails. -/
theorem find?_none_of_hasHeader_false (hs : HdrList) (n : String)
    (h : hasHeader hs n = false) :
    List.find? (fun p => lowStr p.1 == lowStr n) hs = none := by
  rw [List.find?_eq_none]
  unfold hasHeader at h
  rw [List.any_eq_false] at h
  exact h

/-- Reading a freshly appended header. -/
theorem getHeader_append_self (hs : HdrList) (n v : String)
    (h : hasHeader hs n = false) :
    getHeader (hs ++ [(n, v)]) n = some v := by
  unfold getHeader
  rw [List.find?_append, find?_none_of_hasHeader_false hs n h]
  simp [List.find?_cons]

/-- The injected header transformation is idempotent on requests. -/
theorem ensureTokenTransform_idem (origin supabaseUrl : String) (ls : LStore)
    (url : String) (hs : HdrList) :
    ensureTokenTransform origin supabaseUrl ls url
      (ensureTokenTransform origin supabaseUrl ls url hs) =
    ensureTokenTransform origin supabaseUrl ls url hs := by
  cases htok : getAuthToken ls with
  | none =>
      unfold ensureTokenTransform
      rw [htok]
  | some tok =>
      by_cases hc : (isSameOriginUrl origin url || isSupabaseUrl supabaseUrl url) = true
      · by_cases hh : (hasHeader hs "Authorization" || hasHeader hs "authorization") = true
        · have hstable : ensureTokenTransform origin supabaseUrl ls url hs = hs := by
            unfold ensureTokenTransform
            rw [htok]
            simp [hc, hh]
          simp only [hstable]
        · have hor : (hasHeader hs "Authorization" || hasHeader hs "authorization") = false :=
            Bool.eq_false_iff.mpr hh
          have h1 : hasHeader hs "Authorization" = false :=
            (Bool.or_eq_false_iff.mp hor).1
          have h2 : hasHeader hs "authorization" = false :=
            (Bool.or_eq_false_iff.mp hor).2
          have hstep : ensureTokenTransform origin supabaseUrl ls url hs =
              hs ++ [("Authorization", "Bearer " ++ jsToString tok)] := by
            unfold ensureTokenTransform
            rw [htok]
            simp only [hc, if_true, h1, h2, Bool.or_self, Bool.false_eq_true, if_false]
            rw [setHeader, h1]
            simp
          rw [hstep]
          have hhas := hasHeader_append_self hs "Authorization" ("Bearer " ++ jsToString tok)
          unfold ensureTokenTransform
          rw [htok]
          simp [hc, hhas]
      · have hcf : (isSameOriginUrl origin url || isSupabaseUrl supabaseUrl url) = false :=
          Bool.eq_false_iff.mpr hc
        have hstable : ensureTokenTransform origin supabaseUrl ls url hs = hs := by
          unfold ensureTokenTransform
          rw [htok]
          simp [hcf]
        simp only [hstable]

end HeaderLemmas

/-- C2 — confirmed.  The installed credential injector
(`ensureTokenInRequests`) adds `Authorization: Bearer <token>` to a
request exactly when the target is same-origin or a Supabase call, a
token is cached, and no Authorization header (any spelling) is present;
a request already carrying one is passed through with its headers
untouched, and a cross-origin, untrusted-host request is never given the
header. -/
theorem ensureToken_injection_policy (origin supabaseUrl : String)
    (ls : LStore) (url : String) (hs : HdrList) :
    (hasHeader hs "Authorization" = true →
      ensureTokenTransform origin supabaseUrl ls url hs = hs) ∧
    ((isSameOriginUrl origin url || isSupabaseUrl supabaseUrl url) = false →
      ensureTokenTransform origin supabaseUrl ls url hs = hs) ∧
    (getAuthToken ls = none →
      ensureTokenTransform origin supabaseUrl ls url hs = hs) ∧
    (∀ tok, getAuthToken ls = some tok →
      (isSameOriginUrl origin url || isSupabaseUrl supabaseUrl url) = true →
      hasHeader hs "Authorization" = false →
      ensureTokenTransform origin supabaseUrl ls url hs =
        hs ++ [("Authorization", "Bearer " ++ jsToString tok)] ∧
      getHeader (ensureTokenTransform origin supabaseUrl ls url hs)
        "Authorization" = some ("Bearer " ++ jsToString tok)) := by
  refine ⟨?_, ?_, ?_, ?_⟩
  · intro h
    unfold ensureTokenTransform
    cases htok : getAuthToken ls with
    | none => rfl
    | some tok => simp [h]
  · intro h
    unfold ensureTokenTransform
    cases htok : getAuthToken ls with
    | none => rfl
    | some tok => simp [h]
  · intro h
    unfold ensureTokenTransform
    rw [h]
  · intro tok htok hc hh
    have hh' : hasHeader hs "authorization" = false := by
      rw [hasHeader_lower_variant]
      exact hh
    have heq : ensureTokenTransform origin supabaseUrl ls url hs =
        hs ++ [("Authorization", "Bearer " ++ jsToString tok)] := by
      unfold ensureTokenTransform
      rw [htok]
      simp only [hc, if_true, hh, hh', Bool.or_self, Bool.false_eq_true, if_false]
      rw [setHeader, hh]
      simp
    exact ⟨heq, by rw [heq]; exact getHeader_append_self hs _ _ hh⟩

/-- C2 — witness: a same-origin request with a cached token and no prior
Authorization header receives the bearer header. -/
theorem ensureToken_injection_policy_witness :
    getHeader (ensureTokenTransform "https://app.example" ""
      [("aditi_supabase_auth", JVal.obj [("access_token", JVal.str "T")])]
      "/api/x" []) "Authorization" = some ("Bearer T") :=
  ((ensureToken_injection_policy "https://app.example" ""
      [("aditi_supabase_auth", JVal.obj [("access_token", JVal.str "T")])]
      "/api/x" []).2.2.2 (JVal.str "T") rfl rfl rfl).2

/-- C5 — counterexample.  There is no installed-flag guard: invoking
`ensureTokenInRequests` a second time is not a no-op — it wraps the
already-wrapped fetch again, so the installed function after two calls
differs from the one after a single call. -/
theorem ensureToken_double_install_wraps :
    ensureTokenInRequests (ensureTokenInRequests FetchImpl.original) ≠
      ensureTokenInRequests FetchImpl.original := by
  decide

/-- C5 — amended.  Re-invoking the installer does re-wrap the fetch
primitive, but the double wrapper is observationally equivalent to a
single one: the injection pass is idempotent, every request reaches the
pristine fetch with identical headers, and the pristine fetch runs
exactly once per request. -/
theorem ensureToken_double_install_equiv (origin supabaseUrl : String)
    (ls : LStore) (url : String) (hs : HdrList) :
    runFetch origin supabaseUrl ls
        (ensureTokenInRequests (ensureTokenInRequests FetchImpl.original)) url hs =
      runFetch origin supabaseUrl ls (ensureTokenInRequests FetchImpl.original) url hs ∧
    (runFetch origin supabaseUrl ls
        (ensureTokenInRequests (ensureTokenInRequests FetchImpl.original)) url hs).2 = 1 := by
  constructor
  · show (ensureTokenTransform origin supabaseUrl ls url
        (ensureTokenTransform origin supabaseUrl ls url hs), 1) =
      (ensureTokenTransform origin supabaseUrl ls url hs, 1)
    rw [ensureTokenTransform_idem]
  · rfl

section MergeLemmas

/-- Last-binding-wins lookup over a concatenation prefers the suffix. -/
theorem jLookup_append (l1 l2 : List (String × JVal)) (k : String) :
    jLookup (l1 ++ l2) k = ((jLookup l2 k).or (jLookup l1 k)) := by
  unfold jLookup
  rw [List.reverse_append, List.find?_append]
  cases hf : List.find? (fun p => p.1 == k) l2.reverse with
  | none => rfl
  | some pr => rfl

/-- A key-directed search commutes with a value-only rewrite of the
pairs. -/
theorem find?_key_map (l : List (String × JVal)) (f : String × JVal → JVal)
    (k : String) :
    List.find? (fun p => p.1 == k) (l.map (fun p => (p.1, f p))) =
      (List.find? (fun p => p.1 == k) l).map (fun p => (p.1, f p)) := by
  induction l with
  | nil => rfl
  | cons x xs ih =>
      cases hx : (x.1 == k) <;> simp [List.find?_cons, hx, ih]

/-- A binding supplied in `extra` survives the object-literal merge
(spread semantics: the caller's binding wins). -/
theorem jLookup_objMerge_extra (base extra : List (String × JVal))
    (k : String) (v : JVal) (h : jLookup extra k = some v) :
    jLookup (objMerge base extra) k = some v := by
  unfold objMerge
  rw [jLookup_append]
  by_cases hb : (base.any (fun p => p.1 == k)) = true
  · have hFj : jLookup (extra.filter
        (fun q => !(base.any (fun p => p.1 == q.1)))) k = none := by
      unfold jLookup
      rw [← List.filter_reverse]
      have hn := find?_key_filter_eq_none extra.reverse
        (fun q => !(base.any (fun p => p.1 == q.1))) k ?_
      · rw [hn]
        rfl
      · intro p hp
        simp [hp, hb]
    rw [hFj]
    show jLookup (base.map (fun p => (p.1,
      (fun q : String × JVal => (jLookup extra q.1).getD q.2) p))) k = some v
    unfold jLookup
    rw [← List.map_reverse, find?_key_map]
    have hbs : (List.find? (fun (p : String × JVal) => p.1 == k)
        base.reverse).isSome = true := by
      rw [List.find?_isSome]
      obtain ⟨p0, hmem, hp0⟩ := List.any_eq_true.mp hb
      exact ⟨p0, List.mem_reverse.mpr hmem, hp0⟩
    obtain ⟨q0, hq0⟩ := Option.isSome_iff_exists.mp hbs
    have hq0k : q0.1 = k := by
      have := List.find?_some hq0
      simpa using this
    rw [hq0]
    show some ((jLookup extra q0.1).getD q0.2) = some v
    rw [hq0k, h]
    rfl
  · have hbf : (base.any (fun p => p.1 == k)) = false := Bool.eq_false_iff.mpr hb
    have hFj : jLookup (extra.filter
        (fun q => !(base.any (fun p => p.1 == q.1)))) k = jLookup extra k := by
      unfold jLookup
      rw [← List.filter_reverse, find?_filter_of_imp]
      intro x hpx
      have hxk : x.1 = k := by simpa using hpx
      simp [hxk, hbf]
    rw [hFj, h]
    rfl

/-- When `extra` does not bind `k`, the merged object looks `k` up among
the (possibly overridden) base fields. -/
theorem jLookup_objMerge_none (base extra : List (String × JVal)) (k : String)
    (h : jLookup extra k = none) :
    jLookup (objMerge base extra) k =
      jLookup (base.map (fun p => (p.1, (jLookup extra p.1).getD p.2))) k := by
  have hfe : List.find? (fun p => p.1 == k) extra.reverse = none := by
    unfold jLookup at h
    rcases hf : List.find? (fun p => p.1 == k) extra.reverse with _ | pr
    · exact hf
    · rw [hf] at h
      simp at h
  unfold objMerge
  rw [jLookup_append]
  have hFj : jLookup (extra.filter
      (fun q => !(base.any (fun p => p.1 == q.1)))) k = none := by
    unfold jLookup
    rw [← List.filter_reverse, find?_filter_none _ _ _ hfe]
    rfl
  rw [hFj]
  rfl

end MergeLemmas

/-- C6 — confirmed.  `saveTabState(extra)` followed by
`restoreTabState()` yields a non-null record that contains every binding
of `extra` and carries the standard fields `tabId`, `lastActive` and
`route` (holding the freshly computed tab id, clock reading and route
whenever `extra` does not override them). -/
theorem saveRestore_roundtrip (ls : LStore) (ss : SStore) (now : Nat)
    (route rand : String) (extra : List (String × JVal)) :
    ∃ fields,
      restoreTabState true (saveTabState true ls ss now route rand extra).1 =
        some (JVal.obj fields) ∧
      (∀ k v, jLookup extra k = some v → jLookup fields k = some v) ∧
      (jLookup fields "tabId").isSome = true ∧
      (jLookup fields "lastActive").isSome = true ∧
      (jLookup fields "route").isSome = true ∧
      (jLookup extra "tabId" = none →
        jLookup fields "tabId" = some (JVal.str (getTabId true ss now rand).1)) ∧
      (jLookup extra "lastActive" = none →
        jLookup fields "lastActive" = some (JVal.num (Int.ofNat now))) ∧
      (jLookup extra "route" = none →
        jLookup fields "route" = some (JVal.str route)) := by
  refine ⟨objMerge (tabStateFields (getTabId true ss now rand).1 now route ls) extra,
    ?_, ?_, ?_, ?_, ?_, ?_, ?_, ?_⟩
  · show getItem (setItem ls TAB_STATE_KEY _) TAB_STATE_KEY = _
    rw [getItem_setItem_self]
  · intro k v h
    exact jLookup_objMerge_extra _ _ _ _ h
  · rcases hx : jLookup extra "tabId" with _ | v
    · rw [jLookup_objMerge_none _ _ _ hx]
      have hm : jLookup ((tabStateFields (getTabId true ss now rand).1 now route ls).map
          (fun p => (p.1, (jLookup extra p.1).getD p.2))) "tabId" =
          some ((jLookup extra "tabId").getD (JVal.str (getTabId true ss now rand).1)) := rfl
      rw [hm]
      rfl
    · rw [jLookup_objMerge_extra _ _ _ _ hx]
      rfl
  · rcases hx : jLookup extra "lastActive" with _ | v
    · rw [jLookup_objMerge_none _ _ _ hx]
      have hm : jLookup ((tabStateFields (getTabId true ss now rand).1 now route ls).map
          (fun p => (p.1, (jLookup extra p.1).getD p.2))) "lastActive" =
          some ((jLookup extra "lastActive").getD (JVal.num (Int.ofNat now))) := rfl
      rw [hm]
      rfl
    · rw [jLookup_objMerge_extra _ _ _ _ hx]
      rfl
  · rcases hx : jLookup extra "route" with _ | v
    · rw [jLookup_objMerge_none _ _ _ hx]
      have hm : jLookup ((tabStateFields (getTabId true ss now rand).1 now route ls).map
          (fun p => (p.1, (jLookup extra p.1).getD p.2))) "route" =
          some ((jLookup extra "route").getD (JVal.str route)) := rfl
      rw [hm]
      rfl
    · rw [jLookup_objMerge_extra _ _ _ _ hx]
      rfl
  · intro hx
    rw [jLookup_objMerge_none _ _ _ hx]
    have hm : jLookup ((tabStateFields (getTabId true ss now rand).1 now route ls).map
        (fun p => (p.1, (jLookup extra p.1).getD p.2))) "tabId" =
        some ((jLookup extra "tabId").getD (JVal.str (getTabId true ss now rand).1)) := rfl
    rw [hm, hx]
    rfl
  · intro hx
    rw [jLookup_objMerge_none _ _ _ hx]
    have hm : jLookup ((tabStateFields (getTabId true ss now rand).1 now route ls).map
        (fun p => (p.1, (jLookup extra p.1).getD p.2))) "lastActive" =
        some ((jLookup extra "lastActive").getD (JVal.num (Int.ofNat now))) := rfl
    rw [hm, hx]
    rfl
  · intro hx
    rw [jLookup_objMerge_none _ _ _ hx]
    have hm : jLookup ((tabStateFields (getTabId true ss now rand).1 now route ls).map
        (fun p => (p.1, (jLookup extra p.1).getD p.2))) "route" =
        some ((jLookup extra "route").getD (JVal.str route)) := rfl
    rw [hm, hx]
    rfl

/-- C6 — witness: saving `{x: 1}` and restoring yields the record with
`x: 1` and the standard fields. -/
theorem saveRestore_roundtrip_witness :
    ∃ fields,
      restoreTabState true (saveTabState true [] [] 7 "/home" "r"
        [("x", JVal.num 1)]).1 = some (JVal.obj fields) ∧
      jLookup fields "x" = some (JVal.num 1) ∧
      jLookup fields "tabId" = some (JVal.str "tab_7_r") := by
  obtain ⟨fields, h1, h2, _, _, _, h6, _, _⟩ :=
    saveRestore_roundtrip [] [] 7 "/home" "r" [("x", JVal.num 1)]
  exact ⟨fields, h1, h2 "x" (JVal.num 1) rfl, h6 rfl⟩

/-- C9 — counterexample.  The claim quantifies over every
`saveTabState(extra)` call, but a caller-supplied `authToken` binding
overrides the freshly read token: with token `"T"` cached, saving
`{authToken: true}` persists the boolean, not the token string. -/
theorem saveTabState_token_overridden :
    getAuthToken [("aditi_supabase_auth", JVal.obj [("access_token", JVal.str "T")])] =
      some (JVal.str "T") ∧
    restoreTabState true (saveTabState true
      [("aditi_supabase_auth", JVal.obj [("access_token", JVal.str "T")])]
      [] 3 "/" "r" [("authToken", JVal.bool true)]).1 =
      some (JVal.obj
        [("tabId", JVal.str "tab_3_r"), ("lastActive", JVal.num 3),
         ("route", JVal.str "/"), ("authToken", JVal.bool true)]) :=
  ⟨rfl, rfl⟩

/-- C9 — amended.  Whenever the caller's `extra` map does not itself bind
`authToken`, the persisted tab record stores the full current token value
(the `JVal` returned by `getAuthToken()`, or JSON null when none) under
the key `authToken` — the bearer credential itself, not a presence flag.
All visibility-transition call sites pass no `authToken` key, so the
credential is replicated into `aditi_tab_state` on every visibility
transition. -/
theorem saveTabState_stores_token (ls : LStore) (ss : SStore) (now : Nat)
    (route rand : String) (extra : List (String × JVal))
    (h : jLookup extra "authToken" = none) :
    ∃ fields,
      restoreTabState true (saveTabState true ls ss now route rand extra).1 =
        some (JVal.obj fields) ∧
      jLookup fields "authToken" = some (optTok (getAuthToken ls)) := by
  refine ⟨objMerge (tabStateFields (getTabId true ss now rand).1 now route ls) extra,
    ?_, ?_⟩
  · show getItem (setItem ls TAB_STATE_KEY _) TAB_STATE_KEY = _
    rw [getItem_setItem_self]
  · rw [jLookup_objMerge_none _ _ _ h]
    have hm : jLookup ((tabStateFields (getTabId true ss now rand).1 now route ls).map
        (fun p => (p.1, (jLookup extra p.1).getD p.2))) "authToken" =
        some ((jLookup extra "authToken").getD (optTok (getAuthToken ls))) := rfl
    rw [hm, h]
    rfl

/-- C9 — witness: with a cached token `"T"` and no `authToken` override,
the stored record carries the token string itself. -/
theorem saveTabState_stores_token_witness :
    ∃ fields,
      restoreTabState true (saveTabState true
        [("aditi_supabase_auth", JVal.obj [("access_token", JVal.str "T")])]
        [] 3 "/" "r" [("x", JVal.num 1)]).1 = some (JVal.obj fields) ∧
      jLookup fields "authToken" = some (JVal.str "T") :=
  saveTabState_stores_token
    [("aditi_supabase_auth", JVal.obj [("access_token", JVal.str "T")])]
    [] 3 "/" "r" [("x", JVal.num 1)] rfl

/-- C10 — confirmed.  In `saveTabState(extra)` the caller's bindings take
precedence over the freshly constructed standard fields: any key bound in
`extra` (including `tabId`, `lastActive`, `route` and `authToken`) is
persisted with the caller's value. -/
theorem saveTabState_extra_precedence (ls : LStore) (ss : SStore) (now : Nat)
    (route rand : String) (extra : List (String × JVal)) (k : String)
    (v : JVal) (h : jLookup extra k = some v) :
    ∃ fields,
      restoreTabState true (saveTabState true ls ss now route rand extra).1 =
        some (JVal.obj fields) ∧
      jLookup fields k = some v := by
  refine ⟨objMerge (tabStateFields (getTabId true ss now rand).1 now route ls) extra,
    ?_, jLookup_objMerge_extra _ _ _ _ h⟩
  show getItem (setItem ls TAB_STATE_KEY _) TAB_STATE_KEY = _
  rw [getItem_setItem_self]

/-- C10 — witness: a caller-supplied `lastActive` wins over the freshly
computed timestamp. -/
theorem saveTabState_extra_precedence_witness :
    ∃ fields,
      restoreTabState true (saveTabState true [] [] 3 "/" "r"
        [("lastActive", JVal.num 999)]).1 = some (JVal.obj fields) ∧
      jLookup fields "lastActive" = some (JVal.num 999) :=
  saveTabState_extra_precedence [] [] 3 "/" "r"
    [("lastActive", JVal.num 999)] "lastActive" (JVal.num 999) rfl

section TabTimerLemmas

/-- Timer callbacks never raise the returning flag or the marker. -/
theorem fireAct_retMarker (s : TabState) (a : TimerAct)
    (h : s.ret = false ∧ s.marker = false) :
    (fireAct s a).ret = false ∧ (fireAct s a).marker = false := by
  cases a
  · exact ⟨rfl, rfl⟩
  · exact h

/-- Timer callbacks never raise the `prevent_auto_refresh` flag. -/
theorem fireAct_prev (s : TabState) (a : TimerAct) (h : s.prev = false) :
    (fireAct s a).prev = false := by
  cases a
  · exact h
  · rfl

/-- Firing any batch of timers keeps the returning flag and marker
clear. -/
theorem foldl_fire_retMarker_preserve (l : List (Nat × TimerAct))
    (s : TabState) (h : s.ret = false ∧ s.marker = false) :
    (l.foldl (fun st t => fireAct st t.2) s).ret = false ∧
    (l.foldl (fun st t => fireAct st t.2) s).marker = false := by
  induction l generalizing s with
  | nil => exact h
  | cons x xs ih => exact ih _ (fireAct_retMarker s x.2 h)

/-- Firing any batch of timers keeps `prevent_auto_refresh` clear. -/
theorem foldl_fire_prev_preserve (l : List (Nat × TimerAct)) (s : TabState)
    (h : s.prev = false) :
    (l.foldl (fun st t => fireAct st t.2) s).prev = false := by
  induction l generalizing s with
  | nil => exact h
  | cons x xs ih => exact ih _ (fireAct_prev s x.2 h)

/-- A batch containing a `clearRetMarker` timer clears the returning flag
and the marker. -/
theorem foldl_fire_retMarker_fires (l : List (Nat × TimerAct)) (s : TabState)
    (h : ∃ t ∈ l, t.2 = TimerAct.clearRetMarker) :
    (l.foldl (fun st t => fireAct st t.2) s).ret = false ∧
    (l.foldl (fun st t => fireAct st t.2) s).marker = false := by
  induction l generalizing s with
  | nil =>
      obtain ⟨t, ht, _⟩ := h
      cases ht
  | cons x xs ih =>
      obtain ⟨t, ht, hact⟩ := h
      rcases List.mem_cons.mp ht with heq | hmem
      · subst heq
        rw [List.foldl_cons]
        apply foldl_fire_retMarker_preserve
        rw [hact]
        exact ⟨rfl, rfl⟩
      · exact ih _ ⟨t, hmem, hact⟩

/-- A batch containing a `clearPrevFlag` timer clears
`prevent_auto_refresh`. -/
theorem foldl_fire_prev_fires (l : List (Nat × TimerAct)) (s : TabState)
    (h : ∃ t ∈ l, t.2 = TimerAct.clearPrevFlag) :
    (l.foldl (fun st t => fireAct st t.2) s).prev = false := by
  induction l generalizing s with
  | nil =>
      obtain ⟨t, ht, _⟩ := h
      cases ht
  | cons x xs ih =>
      obtain ⟨t, ht, hact⟩ := h
      rcases List.mem_cons.mp ht with heq | hmem
      · subst heq
        rw [List.foldl_cons]
        apply foldl_fire_prev_preserve
        rw [hact]
        rfl
      · exact ih _ ⟨t, hmem, hact⟩

/-- Firing due timers preserves the returning-flag invariant. -/
theorem fireDue_retPending (b now : Nat) (s : TabState)
    (h : RetPending b s) : RetPending b (fireDue now s) := by
  have hret : (fireDue now s).ret =
      ((s.timers.filter (fun t => t.1 ≤ now)).foldl
        (fun st t => fireAct st t.2) s).ret := rfl
  have hmk : (fireDue now s).marker =
      ((s.timers.filter (fun t => t.1 ≤ now)).foldl
        (fun st t => fireAct st t.2) s).marker := rfl
  have htm : (fireDue now s).timers =
      s.timers.filter (fun t => !(t.1 ≤ now)) := rfl
  rcases h with hflags | ⟨u, hub, hmem⟩
  · left
    have hp := foldl_fire_retMarker_preserve
      (s.timers.filter (fun t => t.1 ≤ now)) s hflags
    exact ⟨by rw [hret]; exact hp.1, by rw [hmk]; exact hp.2⟩
  · by_cases hu : u ≤ now
    · left
      have hf := foldl_fire_retMarker_fires
        (s.timers.filter (fun t => t.1 ≤ now)) s
        ⟨(u, TimerAct.clearRetMarker),
         List.mem_filter.mpr ⟨hmem, by simpa using hu⟩, rfl⟩
      exact ⟨by rw [hret]; exact hf.1, by rw [hmk]; exact hf.2⟩
    · right
      refine ⟨u, hub, ?_⟩
      rw [htm]
      exact List.mem_filter.mpr ⟨hmem, by simpa using hu⟩

/-- Firing due timers preserves the prevent-flag invariant. -/
theorem fireDue_prevPending (b now : Nat) (s : TabState)
    (h : PrevPending b s) : PrevPending b (fireDue now s) := by
  have hpv : (fireDue now s).prev =
      ((s.timers.filter (fun t => t.1 ≤ now)).foldl
        (fun st t => fireAct st t.2) s).prev := rfl
  have htm : (fireDue now s).timers =
      s.timers.filter (fun t => !(t.1 ≤ now)) := rfl
  rcases h with hflag | ⟨u, hub, hmem⟩
  · left
    rw [hpv]
    exact foldl_fire_prev_preserve _ s hflag
  · by_cases hu : u ≤ now
    · left
      rw [hpv]
      exact foldl_fire_prev_fires _ s
        ⟨(u, TimerAct.clearPrevFlag),
         List.mem_filter.mpr ⟨hmem, by simpa using hu⟩, rfl⟩
    · right
      refine ⟨u, hub, ?_⟩
      rw [htm]
      exact List.mem_filter.mpr ⟨hmem, by simpa using hu⟩

/-- Event handlers preserve the returning-flag invariant (no handler
raises the flag or discards a pending timer). -/
theorem handleEv_retPending (b now : Nat) (e : TabEv) (s : TabState)
    (h : RetPending b s) : RetPending b (handleEv now e s) := by
  cases e
  · rcases h with hflags | ⟨u, hub, hmem⟩
    · exact Or.inl hflags
    · exact Or.inr ⟨u, hub, List.mem_append_left _ hmem⟩
  · exact h
  · rcases h with hflags | ⟨u, hub, hmem⟩
    · exact Or.inl hflags
    · exact Or.inr ⟨u, hub, List.mem_append_left _ hmem⟩

/-- Non-`prevent` event handlers preserve the prevent-flag invariant. -/
theorem handleEv_prevPending (b now : Nat) (e : TabEv) (s : TabState)
    (he : e ≠ TabEv.prevent) (h : PrevPending b s) :
    PrevPending b (handleEv now e s) := by
  cases e
  · rcases h with hflag | ⟨u, hub, hmem⟩
    · exact Or.inl hflag
    · exact Or.inr ⟨u, hub, List.mem_append_left _ hmem⟩
  · exact h
  · exact absurd rfl he

/-- One processed event preserves the returning-flag invariant. -/
theorem stepEv_retPending (b : Nat) (s : TabState) (te : Nat × TabEv)
    (h : RetPending b s) : RetPending b (stepEv s te) :=
  handleEv_retPending b te.1 te.2 _ (fireDue_retPending b te.1 s h)

/-- One processed non-`prevent` event preserves the prevent-flag
invariant. -/
theorem stepEv_prevPending (b : Nat) (s : TabState) (te : Nat × TabEv)
    (he : te.2 ≠ TabEv.prevent) (h : PrevPending b s) :
    PrevPending b (stepEv s te) :=
  handleEv_prevPending b te.1 te.2 _ he (fireDue_prevPending b te.1 s h)

/-- A whole tail of events preserves the returning-flag invariant. -/
theorem foldl_stepEv_retPending (b : Nat) (l : List (Nat × TabEv))
    (s : TabState) (h : RetPending b s) : RetPending b (l.foldl stepEv s) := by
  induction l generalizing s with
  | nil => exact h
  | cons x xs ih => exact ih _ (stepEv_retPending b s x h)

/-- A whole `prevent`-free tail of events preserves the prevent-flag
invariant. -/
theorem foldl_stepEv_prevPending (b : Nat) (l : List (Nat × TabEv)) :
    ∀ (s : TabState), (∀ e ∈ l, e.2 ≠ TabEv.prevent) → PrevPending b s →
      PrevPending b (l.foldl stepEv s) := by
  induction l with
  | nil => exact fun s _ h => h
  | cons x xs ih =>
      intro s hl h
      exact ih _ (fun e he => hl e (List.mem_cons_of_mem x he))
        (stepEv_prevPending b s x (hl x (List.mem_cons_self x xs)) h)

/-- Sampling at or after the pending deadline finds the returning flag
and marker clear. -/
theorem retPending_clear (b T : Nat) (s : TabState) (hbT : b ≤ T)
    (h : RetPending b s) :
    (fireDue T s).ret = false ∧ (fireDue T s).marker = false := by
  have hc := fireDue_retPending b T s h
  rcases hc with hflags | ⟨u, hub, hmem⟩
  · exact hflags
  · exfalso
    have htm : (fireDue T s).timers = s.timers.filter (fun t => !(t.1 ≤ T)) := rfl
    rw [htm] at hmem
    have := (List.mem_filter.mp hmem).2
    have hle : u ≤ T := le_trans hub hbT
    simp [hle] at this

/-- Sampling at or after the pending deadline finds
`prevent_auto_refresh` clear. -/
theorem prevPending_clear (b T : Nat) (s : TabState) (hbT : b ≤ T)
    (h : PrevPending b s) : (fireDue T s).prev = false := by
  have hc := fireDue_prevPending b T s h
  rcases hc with hflag | ⟨u, hub, hmem⟩
  · exact hflag
  · exfalso
    have htm : (fireDue T s).timers = s.timers.filter (fun t => !(t.1 ≤ T)) := rfl
    rw [htm] at hmem
    have := (List.mem_filter.mp hmem).2
    have hle : u ≤ T := le_trans hub hbT
    simp [hle] at this

end TabTimerLemmas

/-- C7 — counterexample.  `prevent_auto_refresh` is not cleared by the
show handler's 2.5 s window: with `preventNextTabSwitchRefresh()` called
at t=0 and the tab shown at t=100, the flag is still set at t=2601,
after the claimed bound 100+2500 has elapsed (its own timer only fires
at t=5000). -/
theorem tabSwitch_prevent_flag_outlives_window :
    (100 : Nat) + 2500 ≤ 2601 ∧
    (stateAt ⟨false, false, false, []⟩
      [(0, TabEv.prevent), (100, TabEv.show)] 2601).prev = true :=
  ⟨by decide, rfl⟩

/-- C7 — amended.  For every event trace: after any show event at time
`t` the `returning_from_tab_switch` flag and the "just activated" marker
are clear at every sample time `T ≥ t + 2500`, regardless of
revalidation; the `prevent_auto_refresh` flag is instead cleared 5000 ms
after the last call of `preventNextTabSwitchRefresh()` — it is clear at
any `T ≥ t + 5000` when no later call occurs — not within the show
handler's 2.5 s window. -/
theorem tabSwitch_flags_bounded_clear :
    (∀ (s0 : TabState) (pre post : List (Nat × TabEv)) (t T : Nat),
      t + 2500 ≤ T →
      (stateAt s0 (pre ++ (t, TabEv.show) :: post) T).ret = false ∧
      (stateAt s0 (pre ++ (t, TabEv.show) :: post) T).marker = false) ∧
    (∀ (s0 : TabState) (pre post : List (Nat × TabEv)) (t T : Nat),
      t + 5000 ≤ T → (∀ e ∈ post, e.2 ≠ TabEv.prevent) →
      (stateAt s0 (pre ++ (t, TabEv.prevent) :: post) T).prev = false) := by
  constructor
  · intro s0 pre post t T hT
    have hrun : runTrace s0 (pre ++ (t, TabEv.show) :: post) =
        post.foldl stepEv (stepEv (runTrace s0 pre) (t, TabEv.show)) := by
      unfold runTrace
      rw [List.foldl_append]
      rfl
    have hstart : RetPending (t + 2500)
        (stepEv (runTrace s0 pre) (t, TabEv.show)) :=
      Or.inr ⟨t + 2500, le_refl _,
        List.mem_append_right _ (List.mem_singleton.mpr rfl)⟩
    have hfin := foldl_stepEv_retPending (t + 2500) post _ hstart
    unfold stateAt
    rw [hrun]
    exact retPending_clear (t + 2500) T _ hT hfin
  · intro s0 pre post t T hT hpost
    have hrun : runTrace s0 (pre ++ (t, TabEv.prevent) :: post) =
        post.foldl stepEv (stepEv (runTrace s0 pre) (t, TabEv.prevent)) := by
      unfold runTrace
      rw [List.foldl_append]
      rfl
    have hstart : PrevPending (t + 5000)
        (stepEv (runTrace s0 pre) (t, TabEv.prevent)) :=
      Or.inr ⟨t + 5000, le_refl _,
        List.mem_append_right _ (List.mem_singleton.mpr rfl)⟩
    have hfin := foldl_stepEv_prevPending (t + 5000) post _ hpost hstart
    unfold stateAt
    rw [hrun]
    exact prevPending_clear (t + 5000) T _ hT hfin

/-- C7 — witness for the amended theorem on a one-event trace from a
dirty initial state. -/
theorem tabSwitch_flags_bounded_clear_witness :
    (stateAt ⟨true, true, true, []⟩ [(0, TabEv.show)] 2500).ret = false ∧
    (stateAt ⟨true, true, true, []⟩ [(0, TabEv.prevent)] 5000).prev = false :=
  ⟨(tabSwitch_flags_bounded_clear.1 ⟨true, true, true, []⟩ [] [] 0 2500
      (by decide)).1,
   tabSwitch_flags_bounded_clear.2 ⟨true, true, true, []⟩ [] [] 0 5000
      (by decide) (fun e he => absurd he (List.not_mem_nil e))⟩

end Aditi
